import Mathlib

/-!
# Verification of the Eterna wallet secret-management core

Shallow embedding, in Lean 4, of the wallet's secret-management subsystem:
the BIP-39-style mnemonic engine (`src/core/mnemonic.js`), the password-based
cipher engine (`EncryptionManager`), the secret store (`src/core/storage.js`,
`StorageManager`) and the session manager (`WalletManager`).

External platform primitives (Web Crypto's SHA-256 / PBKDF2 / AES-GCM,
`TextEncoder`/`TextDecoder`, Unicode NFKD normalization, the IndexedDB
backend's per-operation success/failure, and the random byte source) are not
repository code; they enter the embedding as explicit function parameters,
constrained only by hypotheses that state standard facts about the real
primitives.  Everything else is translated statement by statement from the
JavaScript source.
-/

namespace EternaWallet

/-! ## JavaScript string helpers

`String.prototype.trim` / `split(/\s+/g)` / `split(' ')`, restricted to the
ASCII whitespace that occurs in this code base. -/

def jsIsWs (c : Char) : Bool :=
  c == ' ' || c == '\t' || c == '\n' || c == '\r'

/-- Embeds `s.trim()`. -/
def jsTrim (s : String) : String :=
  ⟨((s.data.dropWhile jsIsWs).reverse.dropWhile jsIsWs).reverse⟩

/-- Maximal non-whitespace runs of a character list (accumulator form). -/
def splitTokensAux : List Char → List Char → List String
  | [], [] => []
  | [], cur => [⟨cur.reverse⟩]
  | c :: cs, cur =>
    if jsIsWs c then
      (if cur.isEmpty then splitTokensAux cs [] else ⟨cur.reverse⟩ :: splitTokensAux cs [])
    else
      splitTokensAux cs (c :: cur)

/-- Embeds `s.trim().split(/\s+/g)`: on the empty (or all-whitespace) string the JS
split returns `[""]`; otherwise it returns the maximal non-whitespace runs. -/
def jsTrimSplit (s : String) : List String :=
  let t := jsTrim s
  if t.data.isEmpty then [""] else splitTokensAux t.data []

/-! ## Bit helpers (`byteToBits`, `numberToBits`, `bitsToNumber`) -/

/-- Embeds `byteToBits(byte)`: bits of a byte, most significant first. -/
def byteToBits (b : Nat) : List Nat :=
  (List.range 8).map (fun i => (b >>> (7 - i)) % 2)

/-- Embeds `numberToBits(number, length)` for a non-negative JS number. -/
def numberToBits (n : Nat) (len : Nat) : List Nat :=
  (List.range len).map (fun i => (n >>> (len - 1 - i)) % 2)

/-- Bit `i` of a signed 32-bit JS number, as produced by `(number >> i) & 1`;
for a negative number the two's-complement bit is the complement of the
corresponding bit of `-n - 1`. -/
def jsBitInt (n : Int) (i : Nat) : Nat :=
  if 0 ≤ n then (n.toNat >>> i) % 2 else 1 - (((-n - 1).toNat >>> i) % 2)

/-- Embeds `numberToBits(number, length)` on a possibly negative JS number (the
source reaches this with `indexOf` results, which may be `-1`). -/
def numberToBitsInt (n : Int) (len : Nat) : List Nat :=
  (List.range len).map (fun i => jsBitInt n (len - 1 - i))

/-- Embeds `bitsToNumber(bits)`: `(number << 1) | bit`, folded over the list. -/
def bitsToNumber (bits : List Nat) : Nat :=
  bits.foldl (fun acc b => acc * 2 + b) 0

/-- Embeds `array.indexOf(x)`: index of the first occurrence, `-1` when absent. -/
def jsIndexOf (l : List String) (x : String) : Int :=
  match l.findIdx? (fun w => w == x) with
  | some i => (i : Int)
  | none => -1

/-- Embeds `array.slice(-n)` on an array of numbers: for `n = 0` JS `slice(-0)`
is `slice(0)`, the whole array; otherwise the last `n` elements. -/
def jsSliceNeg (l : List Nat) (n : Nat) : List Nat :=
  if n = 0 then l else l.drop (l.length - n)

/-- Embeds `s.split(' ')` with a literal one-space separator (accumulator form):
empty fields between consecutive separators are kept, and `"".split(' ')`
is `[""]`. -/
def splitOnSpaceAux : List Char → List Char → List String
  | [], cur => [⟨cur.reverse⟩]
  | c :: cs, cur =>
    if c == ' ' then ⟨cur.reverse⟩ :: splitOnSpaceAux cs [] else splitOnSpaceAux cs (c :: cur)

/-- Embeds `s.split(' ')`. -/
def jsSplitSpace (s : String) : List String :=
  splitOnSpaceAux s.data []

/-! ## Mnemonic engine (`MnemonicManager`, `src/core/mnemonic.js`) -/

/-- Embeds `SecurityConfig.validation.mnemonic.wordCount`. -/
def mnemonicWordCounts : List Nat := [12, 15, 18, 21, 24]

/-- Embeds `getEnglishWordList()`: the word array exactly as it appears in the
source file, which ships 51 words (the literal ends after "alert" with
"zone"; the comment in the source says the full 2048-word list is only
"in production"). -/
def wordListSrc : List String := [
  "abandon", "ability", "able", "about", "above", "absent", "absorb", "abstract", "absurd", "abuse",
  "access", "accident", "account", "accuse", "achieve", "acid", "acoustic", "acquire", "across", "act",
  "action", "actor", "actress", "actual", "adapt", "add", "addict", "address", "adjust", "admit",
  "adult", "advance", "advice", "aerobic", "affair", "afford", "afraid", "again", "age", "agent",
  "agree", "ahead", "aim", "air", "airport", "aisle", "alarm", "album", "alcohol", "alert",
  "zone"]

/-- Embeds `entropyToMnemonic(entropy)`.

The source computes `const hash = this.sha256(entropy)` where `sha256`
returns `window.crypto.subtle.digest(...)` — a `Promise` — without awaiting
it.  A `Promise` has no `length` property, so the loop that would copy hash
bytes into `hashBits` never executes and the checksum bit list stays empty;
consequently no checksum bits are appended to `bits`.

`wordList[index]` is `undefined` for an index past the 51 shipped words, and
`Array.prototype.join` renders `undefined` as the empty string. -/
def entropyToMnemonic (entropy : List Nat) : String :=
  let hashBits : List Nat := []
  let checksumBits := entropy.length * 8 / 32
  let bits := entropy.flatMap byteToBits ++ hashBits.take checksumBits
  let numWords := (bits.length + 10) / 11
  let words := (List.range numWords).map
    (fun j => ((wordListSrc.get? (bitsToNumber ((bits.drop (11 * j)).take 11))).getD ""))
  " ".intercalate words

/-- Embeds `generateMnemonic(wordCount)`.  The random entropy bytes come from
`SecurityConfig.generateSecureRandom` (a `Uint8Array`); the byte stream is
an explicit parameter `rng`.  The final `SecurityConfig.zeroBuffer(entropy)`
is a no-op on a `Uint8Array` (see `zeroBufferJs` below) and does not affect
the returned phrase. -/
def generateMnemonic (wordCount : Nat) (rng : Nat → Nat) : Except String String :=
  if !(mnemonicWordCounts.contains wordCount) then
    .error ("Invalid word count. Must be one of: " ++
      ", ".intercalate (mnemonicWordCounts.map toString))
  else
    let entropyBits := wordCount * 11 - wordCount / 3
    let entropyBytes := entropyBits / 8
    let entropy := (List.range entropyBytes).map (fun i => rng i % 256)
    .ok (entropyToMnemonic entropy)

/-- The word-to-bits loop of `mnemonicToEntropy`, which throws on the first
word that is not in the dictionary. -/
def wordsToBits : List String → Except String (List Nat)
  | [] => .ok []
  | w :: ws =>
    if jsIndexOf wordListSrc w = -1 then .error ("Invalid word: " ++ w)
    else
      match wordsToBits ws with
      | .error e => .error e
      | .ok rest => .ok (numberToBits (jsIndexOf wordListSrc w).toNat 11 ++ rest)

/-- Embeds `mnemonicToEntropy(mnemonic)`. -/
def mnemonicToEntropy (mnemonic : String) : Except String (List Nat) :=
  let words := jsTrimSplit mnemonic
  match wordsToBits words with
  | .error e => .error e
  | .ok bits =>
    let checksumBits := bits.length / 33
    let entropyBits := bits.length - checksumBits
    let numBytes := (entropyBits + 7) / 8
    .ok ((List.range numBytes).map (fun j => bitsToNumber ((bits.drop (8 * j)).take 8)))

/-- Embeds `verifyChecksum(entropy)`.

Same un-awaited `sha256` Promise as in `entropyToMnemonic`, so `hashBits`
is empty and `expectedChecksum` is the empty array; comparing a checksum
bit against `undefined` with `!==` always differs.  The re-derived mnemonic
is split with `split(' ')` (a literal space, not a regex). -/
def verifyChecksum (entropy : List Nat) : Bool :=
  let hashBits : List Nat := []
  let checksumBits := entropy.length * 8 / 32
  let words := jsSplitSpace (entropyToMnemonic entropy)
  let bits := words.flatMap (fun w => numberToBitsInt (jsIndexOf wordListSrc w) 11)
  let extracted := jsSliceNeg bits checksumBits
  let expected := hashBits.take checksumBits
  (List.range checksumBits).all (fun i => extracted.get? i == expected.get? i)

/-- Input to `validateMnemonic`: a JS string, or any non-string value. -/
inductive JSInput where
  | str (s : String)
  | nonString
deriving DecidableEq

/-- The `{valid, error?}` result object of `validateMnemonic`. -/
structure ValidationResult where
  valid : Bool
  error : Option String
deriving DecidableEq, Repr

/-- Embeds `validateMnemonic(mnemonic)`.  `!mnemonic` is true for the empty string,
so `""` takes the "Invalid mnemonic format" branch.  The dictionary loop
reports the first unknown word.  The `try`/`catch` around
`mnemonicToEntropy`/`verifyChecksum` turns a thrown message into
`{valid: false, error: message}`. -/
def validateMnemonic (mnemonic : JSInput) : ValidationResult :=
  match mnemonic with
  | .nonString => ⟨false, some "Invalid mnemonic format"⟩
  | .str s =>
    if s = "" then ⟨false, some "Invalid mnemonic format"⟩
    else
      let words := jsTrimSplit s
      if !(mnemonicWordCounts.contains words.length) then
        ⟨false, some ("Invalid word count. Must be " ++
          ", ".intercalate (mnemonicWordCounts.map toString) ++ " words")⟩
      else
        match words.find? (fun w => !(wordListSrc.contains w)) with
        | some w => ⟨false, some ("Invalid word: \"" ++ w ++ "\"")⟩
        | none =>
          match mnemonicToEntropy s with
          | .error e => ⟨false, some e⟩
          | .ok entropy =>
            if verifyChecksum entropy then ⟨true, none⟩
            else ⟨false, some "Invalid checksum"⟩

/-- The phrase `generateMnemonic(12)` produces from all-zero entropy. -/
def zeroPhrase12 : String :=
  "abandon abandon abandon abandon abandon abandon abandon abandon abandon abandon abandon abandon"

/-! ## Base64 (`arrayBufferToBase64` / `base64ToArrayBuffer`)

`arrayBufferToBase64` turns the byte array into a latin-1 string and calls
`btoa`; `base64ToArrayBuffer` calls `atob` and reads the char codes back.
The two loops compose with `btoa`/`atob` to the standard base64 codec on
byte lists, which is what is embedded here. -/

def b64Alphabet : List Char :=
  "ABCDEFGHIJKLMNOPQRSTUVWXYZabcdefghijklmnopqrstuvwxyz0123456789+/".data

/-- The base64 digit for a 6-bit value. -/
def b64Ch (v : Nat) : Char := (b64Alphabet.get? v).getD '?'

/-- The 6-bit value of a base64 digit (`none` for a non-alphabet char,
including `'='`). -/
def b64Index (c : Char) : Option Nat :=
  b64Alphabet.findIdx? (fun d => d == c)

/-- Encode bytes three at a time into base64 digits, `'='`-padding the final
group as `btoa` does. -/
def b64EncodeGroups : List Nat → List Char
  | [] => []
  | [a] => [b64Ch (a / 4), b64Ch (a % 4 * 16), '=', '=']
  | [a, b] => [b64Ch (a / 4), b64Ch (a % 4 * 16 + b / 16), b64Ch (b % 16 * 4), '=']
  | a :: b :: c :: rest =>
    b64Ch (a / 4) :: b64Ch (a % 4 * 16 + b / 16) :: b64Ch (b % 16 * 4 + c / 64) ::
      b64Ch (c % 64) :: b64EncodeGroups rest

/-- Embeds `arrayBufferToBase64(buffer)`. -/
def arrayBufferToBase64 (bytes : List Nat) : String :=
  ⟨b64EncodeGroups bytes⟩

/-- Decode base64 digits four at a time; `'='` padding is accepted only at
the end of the input, anything else is rejected (`atob` throws, which the
caller's `try`/`catch` turns into the uniform decryption failure). -/
def b64DecodeGroups : List Char → Option (List Nat)
  | [] => some []
  | c1 :: c2 :: c3 :: c4 :: rest =>
    if c3 = '=' ∧ c4 = '=' ∧ rest = [] then
      match b64Index c1, b64Index c2 with
      | some v1, some v2 => some [v1 * 4 + v2 / 16]
      | _, _ => none
    else if c4 = '=' ∧ rest = [] then
      match b64Index c1, b64Index c2, b64Index c3 with
      | some v1, some v2, some v3 => some [v1 * 4 + v2 / 16, v2 % 16 * 16 + v3 / 4]
      | _, _, _ => none
    else
      match b64Index c1, b64Index c2, b64Index c3, b64Index c4 with
      | some v1, some v2, some v3, some v4 =>
        match b64DecodeGroups rest with
        | some bs => some ((v1 * 4 + v2 / 16) :: (v2 % 16 * 16 + v3 / 4) :: (v3 % 4 * 64 + v4) :: bs)
        | none => none
      | _, _, _, _ => none
  | _ => none

/-- Embeds `base64ToArrayBuffer(base64)`, `none` when `atob` would throw. -/
def base64ToArrayBuffer (s : String) : Option (List Nat) :=
  b64DecodeGroups s.data

/-! ## Cipher engine (`EncryptionManager`, `src/unnamed/part_002`)

`SecurityConfig.encryption`: AES-GCM, 256-bit key, 12-byte IV, 16-byte salt,
100 000 PBKDF2 iterations, SHA-256.  The Web Crypto primitives (PBKDF2 key
derivation, AES-GCM seal/open) and the text codec (`TextEncoder` /
`TextDecoder`) are external; they are collected in `CryptoPrims` with the
key type `K` abstract (the derived `CryptoKey` is non-extractable, so no
byte representation of it is visible to the repository code). -/

def saltSizeCfg : Nat := 16
def ivSizeCfg : Nat := 12
def iterationsCfg : Nat := 100000

/-- The external cryptographic and text primitives used by the cipher
engine. -/
structure CryptoPrims (K : Type) where
  kdf : String → List Nat → K
  aeadSeal : K → List Nat → List Nat → List Nat
  aeadOpen : K → List Nat → List Nat → Option (List Nat)
  utf8Enc : String → List Nat
  utf8Dec : List Nat → String

/-- AES-GCM opens what it sealed, under the same key and IV. -/
def AeadRoundTrip {K : Type} (P : CryptoPrims K) : Prop :=
  ∀ k iv p, P.aeadOpen k iv (P.aeadSeal k iv p) = some p

/-- AES-GCM authenticity: opening under a different key fails. -/
def AeadAuth {K : Type} (P : CryptoPrims K) : Prop :=
  ∀ k k' iv p, k ≠ k' → P.aeadOpen k' iv (P.aeadSeal k iv p) = none

/-- AES-GCM output is made of bytes when its input is. -/
def AeadBytes {K : Type} (P : CryptoPrims K) : Prop :=
  ∀ k iv p, (∀ x ∈ p, x < 256) → ∀ x ∈ P.aeadSeal k iv p, x < 256

/-- UTF-8 decoding inverts UTF-8 encoding on strings. -/
def Utf8RoundTrip {K : Type} (P : CryptoPrims K) : Prop :=
  ∀ s, P.utf8Dec (P.utf8Enc s) = s

/-- Embeds `TextEncoder` produces bytes. -/
def Utf8Bytes {K : Type} (P : CryptoPrims K) : Prop :=
  ∀ s, ∀ x ∈ P.utf8Enc s, x < 256

/-- A value passed to `SecurityConfig.zeroBuffer`: the source distinguishes
`ArrayBuffer`s, plain arrays, strings, and everything else (a `Uint8Array`
is none of the first three). -/
inductive JsBuf where
  | arrayBuffer (b : List Nat)
  | plainArray (b : List Nat)
  | uint8 (b : List Nat)
  | jsStr (s : String)
deriving DecidableEq

/-- Embeds `SecurityConfig.zeroBuffer(buffer)`: zeroes an `ArrayBuffer` through a
fresh `Uint8Array` view, zeroes a plain array in place, and leaves a string
untouched (only the local variable is nulled).  A `Uint8Array` matches none
of the three `if` branches and is left untouched as well. -/
def zeroBufferJs : JsBuf → JsBuf
  | .arrayBuffer b => .arrayBuffer (List.replicate b.length 0)
  | .plainArray b => .plainArray (List.replicate b.length 0)
  | .uint8 b => .uint8 b
  | .jsStr s => .jsStr s

/-- A value passed as the `data` argument of `encrypt`: a JS string or a
`Uint8Array` byte payload. -/
inductive JSData where
  | str (s : String)
  | bytes (b : List Nat)
deriving DecidableEq

/-- Embeds `SecurityConfig.generateSecureRandom`: `len` bytes drawn from the random
stream `rng` starting at offset `start`. -/
def rngBytes (rng : Nat → Nat) (start len : Nat) : List Nat :=
  (List.range len).map (fun i => rng (start + i) % 256)

/-- The `dataBuffer` selected by `encrypt`: a string goes through
`TextEncoder().encode` (a fresh `Uint8Array`); a `Uint8Array` contributes
`data.buffer`, the caller's own `ArrayBuffer`. -/
def dataBufferOf {K : Type} (P : CryptoPrims K) : JSData → JsBuf
  | .str s => .uint8 (P.utf8Enc s)
  | .bytes b => .arrayBuffer b

/-- The bytes underlying a `JsBuf`. -/
def jsBufBytes : JsBuf → List Nat
  | .arrayBuffer b => b
  | .plainArray b => b
  | .uint8 b => b
  | .jsStr _ => []

/-- The plaintext bytes `encrypt` feeds to AES-GCM. -/
def dataBytesOf {K : Type} (P : CryptoPrims K) (data : JSData) : List Nat :=
  jsBufBytes (dataBufferOf P data)

/-- Result of a successful `encrypt` call: the base64 envelope, plus the
state of the caller's `data` buffer after the cleanup calls (the observable
frame effect of the call). -/
structure EncryptResult where
  envelope : String
  dataAfter : JsBuf
deriving DecidableEq

/-- Embeds `EncryptionManager.encrypt(data, password)`.

Fresh 16-byte salt and 12-byte IV are drawn from the random stream; the key
is derived by PBKDF2 (`deriveKey`, which throws `'Password and salt
required'` on a falsy password — the empty string — and the surrounding
`try`/`catch` rethrows `'Failed to encrypt data'`); the envelope is
`base64(salt ‖ iv ‖ ciphertext‖tag)`.  Cleanup calls
`zeroBuffer(salt)`, `zeroBuffer(iv)` (both `Uint8Array`s, hence no-ops) and
`zeroBuffer(dataBuffer)`; for a `Uint8Array` argument `dataBuffer` is the
caller's `ArrayBuffer` and is zeroed. -/
def encrypt {K : Type} (P : CryptoPrims K) (rng : Nat → Nat) (data : JSData)
    (password : String) : Except String EncryptResult :=
  if password = "" then .error "Failed to encrypt data"
  else
    let salt := rngBytes rng 0 saltSizeCfg
    let iv := rngBytes rng saltSizeCfg ivSizeCfg
    let key := P.kdf password salt
    let dataBuffer := dataBufferOf P data
    let encrypted := P.aeadSeal key iv (jsBufBytes dataBuffer)
    let result := salt ++ iv ++ encrypted
    .ok { envelope := arrayBufferToBase64 result, dataAfter := zeroBufferJs dataBuffer }

/-- The single error every failed `decrypt` raises: wrong password,
corrupted base64, or a tampered ciphertext are indistinguishable. -/
def decryptFailedMsg : String := "Failed to decrypt data - wrong password?"

/-- Embeds `EncryptionManager.decrypt(encryptedData, password)`.

The envelope is base64-decoded (`atob` throwing is caught and surfaces as
the uniform failure), then split at the fixed offsets `0..16` (salt),
`16..28` (IV) and `28..` (ciphertext‖tag); the key is re-derived from the
password and the recovered salt (`deriveKey` throws on the falsy empty
password); AES-GCM opens the ciphertext, and the plaintext bytes are
returned through `TextDecoder().decode` — a string. -/
def decrypt {K : Type} (P : CryptoPrims K) (encryptedData : String)
    (password : String) : Except String String :=
  match base64ToArrayBuffer encryptedData with
  | none => .error decryptFailedMsg
  | some encryptedBuffer =>
    let salt := encryptedBuffer.take saltSizeCfg
    let iv := (encryptedBuffer.drop saltSizeCfg).take ivSizeCfg
    let ciphertext := encryptedBuffer.drop (saltSizeCfg + ivSizeCfg)
    if password = "" then .error decryptFailedMsg
    else
      let key := P.kdf password salt
      match P.aeadOpen key iv ciphertext with
      | none => .error decryptFailedMsg
      | some decrypted => .ok (P.utf8Dec decrypted)

/-- The round trip of the spec's testable property: encrypt, then decrypt
with the (possibly different) password, as a single JS value; `none` when
either step throws. -/
def cipherRoundTrip {K : Type} (P : CryptoPrims K) (rng : Nat → Nat) (data : JSData)
    (password password' : String) : Option JSData :=
  match encrypt P rng data password with
  | .error _ => none
  | .ok r =>
    match decrypt P r.envelope password' with
    | .error _ => none
    | .ok s => some (.str s)

/-! ## `mnemonicToSeed` (`MnemonicManager.mnemonicToSeed`)

`window.crypto.subtle.deriveBits({name:'PBKDF2', salt, iterations: 2048,
hash:'SHA-512'}, key(mnemonicBuffer), 512)` is PBKDF2-HMAC-SHA-512 (RFC
8018) producing 512 bits = 64 bytes.  The PBKDF2 block structure is spelled
out here over an abstract PRF `prf` (HMAC-SHA-512, whose output is 64 bytes);
`TextEncoder` and `String.prototype.normalize('NFKD')` are abstract
parameters as well. -/

/-- Byte-wise XOR (on equal-length byte strings). -/
def xorBytes (a b : List Nat) : List Nat :=
  List.zipWith (fun x y => x ^^^ y) a b

/-- Big-endian 32-bit block index, as PBKDF2 appends to the salt. -/
def int32be (i : Nat) : List Nat :=
  [i / 16777216 % 256, i / 65536 % 256, i / 256 % 256, i % 256]

/-- The XOR-accumulating iteration `U_1 ⊕ U_2 ⊕ ⋯` of a PBKDF2 block:
`n` remaining applications of the PRF, current accumulator, current `U`. -/
def pbkdf2Iter (prf : List Nat → List Nat → List Nat) (pw : List Nat) :
    Nat → List Nat → List Nat → List Nat
  | 0, acc, _ => acc
  | n + 1, acc, u =>
    let u' := prf pw u
    pbkdf2Iter prf pw n (xorBytes acc u') u'

/-- PBKDF2 block `T_i = U_1 ⊕ ⋯ ⊕ U_c` with `U_1 = PRF(pw, salt ‖ INT(i))`. -/
def pbkdf2Block (prf : List Nat → List Nat → List Nat) (pw salt : List Nat)
    (c i : Nat) : List Nat :=
  let u1 := prf pw (salt ++ int32be i)
  pbkdf2Iter prf pw (c - 1) u1 u1

/-- PBKDF2: first `dkLen` bytes of `T_1 ‖ T_2 ‖ ⋯`, with `hLen` the PRF
output size in bytes. -/
def pbkdf2 (prf : List Nat → List Nat → List Nat) (pw salt : List Nat)
    (c dkLen hLen : Nat) : List Nat :=
  let l := (dkLen + hLen - 1) / hLen
  (((List.range l).map (fun i => pbkdf2Block prf pw salt c (i + 1))).flatten).take dkLen

/-- Embeds `mnemonicToSeed(mnemonic, passphrase = '')`: NFKD-normalize both inputs,
salt is the string `'mnemonic' + passphrase` (normalized), 2048 iterations,
512 derived bits = 64 bytes, SHA-512 (`hLen` 64).  The two
`SecurityConfig.zeroBuffer` cleanup calls act on `Uint8Array`s and are
no-ops that do not affect the returned seed. -/
def mnemonicToSeed (prf : List Nat → List Nat → List Nat) (utf8 : String → List Nat)
    (nfkd : String → String) (mnemonic : String) (passphrase : String) : List Nat :=
  let mnemonicBuffer := utf8 (nfkd mnemonic)
  let saltBuffer := utf8 ("mnemonic" ++ nfkd passphrase)
  pbkdf2 prf mnemonicBuffer saltBuffer 2048 64 64

/-! ## Secret store (`StorageManager`, `src/core/storage.js`)

IndexedDB holds four object stores: `wallets` (key `id`), `settings` (key
`key`), `transactions` (key `id`), `tokens` (key `address`).  The backend is
external: each readwrite request (`put`, `clear`) either succeeds or rejects,
which the environment schedule `env : Nat → Bool` decides per request (the
`n`-th request succeeds iff `env n`); readonly requests (`get`, `getAll`,
`count`) are modelled as always succeeding — no claim exercises read
failures.  `put` upserts by key.  (IndexedDB iterates records in key order;
the model keeps insertion order, which no claim depends on.) -/

/-- A JS-falsy string field: `undefined`/`null` or the empty string. -/
def jsFalsyStr : Option String → Bool
  | none => true
  | some s => s = ""

/-- Embeds `v || default` on a string field. -/
def jsOrStr (v : Option String) (d : String) : String :=
  match v with
  | none => d
  | some s => if s = "" then d else s

/-- A record of the `wallets` object store, as built by `saveWallet`:
there is no plaintext-mnemonic field, only `encryptedMnemonic`. -/
structure StoredWallet where
  id : String
  name : String
  encryptedMnemonic : String
  addresses : List (String × String)
  createdAt : Nat
  updatedAt : Nat
  version : String
deriving DecidableEq

/-- A record of the `settings` object store. -/
structure SettingRec where
  key : String
  value : String
deriving DecidableEq

/-- A record of the `transactions` object store (fields other than the key
are irrelevant to the claims and collapsed into `data`). -/
structure TxRec where
  id : String
  data : String
deriving DecidableEq

/-- A record of the `tokens` object store. -/
structure TokenRec where
  address : String
  data : String
deriving DecidableEq

/-- The IndexedDB state: the four object stores plus the number of
readwrite requests issued so far (the index into the environment
schedule). -/
structure DB where
  wallets : List StoredWallet
  settings : List SettingRec
  transactions : List TxRec
  tokens : List TokenRec
  ops : Nat
deriving DecidableEq

/-- One readwrite request against the backend: the environment schedule
decides success; a rejected request leaves the data unchanged and the
error propagates to the awaiting caller. -/
def dbRequest (env : Nat → Bool) (db : DB) (f : DB → DB) : DB × Except String Unit :=
  if env db.ops then
    let db' := f db
    ({ db' with ops := db.ops + 1 }, .ok ())
  else
    ({ db with ops := db.ops + 1 }, .error "StorageError")

/-- Embeds `store.put(x)` with key path `key`: replace the record with the same
key, or add the record. -/
def putByKey {α : Type} (key : α → String) (l : List α) (x : α) : List α :=
  if l.any (fun y => key y == key x) then
    l.map (fun y => if key y == key x then x else y)
  else l ++ [x]

/-- Embeds `AppConfig.version`.  Modelled from the spec: the app-config module is
not among the provided sources; the spec's wallet record carries a
`schemaVersion` whose concrete value no claim depends on. -/
def appVersionCfg : String := "1.0.0"

/-- The caller-side wallet object passed to `saveWallet` (built by
`createWallet`/`importWallet` in the session manager): it still holds the
plaintext `mnemonic` field. -/
structure WalletIn where
  id : Option String
  name : Option String
  mnemonic : Option String
  addresses : List (String × String)
  createdAt : Nat
deriving DecidableEq

/-- The `encryptedData` object literal `saveWallet` builds and persists:
`id` (or a fresh one), `name` (or the default), the ciphertext
`encryptedMnemonic`, the addresses, timestamps and version — and no
plaintext-mnemonic field. -/
def savedRecordOf (walletData : WalletIn) (freshId : String) (now : Nat)
    (envelope : String) : StoredWallet :=
  { id := jsOrStr walletData.id freshId
    name := jsOrStr walletData.name "Eterna Wallet"
    encryptedMnemonic := envelope
    addresses := walletData.addresses
    createdAt := now
    updatedAt := now
    version := appVersionCfg }

/-- Embeds `StorageManager.saveWallet(walletData, password)`.

Builds `encryptedData` (`savedRecordOf`, with the envelope produced by the
cipher engine), `put`s it into `wallets`, then nulls the caller's
`walletData.mnemonic` and returns the id.  A `null` mnemonic makes the
cipher call throw (`'Failed to encrypt data'`), and any error is rethrown
before the caller's field is nulled.  Returns the final backend state, the
caller's (possibly scrubbed) record, and the result. -/
def saveWallet {K : Type} (P : CryptoPrims K) (rng : Nat → Nat) (env : Nat → Bool)
    (db : DB) (walletData : WalletIn) (password : String) (freshId : String)
    (now : Nat) : DB × WalletIn × Except String String :=
  match walletData.mnemonic with
  | none => (db, walletData, .error "Failed to encrypt data")
  | some m =>
    match encrypt P rng (.str m) password with
    | .error e => (db, walletData, .error e)
    | .ok r =>
      let encryptedData := savedRecordOf walletData freshId now r.envelope
      match dbRequest env db (fun d => { d with wallets := putByKey (fun w => w.id) d.wallets encryptedData }) with
      | (db', .error e) => (db', walletData, .error e)
      | (db', .ok _) => (db', { walletData with mnemonic := none }, .ok encryptedData.id)

/-- The decrypted wallet object `loadWallet` returns. -/
structure LoadedWallet where
  id : String
  name : String
  mnemonic : Option String
  addresses : List (String × String)
  createdAt : Nat
  version : String
deriving DecidableEq

/-- Embeds `StorageManager.loadWallet(walletId, password)`: find the encrypted
record, decrypt the mnemonic (a decryption failure propagates), return the
decrypted wallet object. -/
def loadWallet {K : Type} (P : CryptoPrims K) (db : DB) (walletId : String)
    (password : String) : Except String LoadedWallet :=
  match db.wallets.find? (fun w => w.id == walletId) with
  | none => .error "Wallet not found"
  | some encryptedData =>
    match decrypt P encryptedData.encryptedMnemonic password with
    | .error e => .error e
    | .ok mnemonic =>
      .ok { id := encryptedData.id
            name := encryptedData.name
            mnemonic := some mnemonic
            addresses := encryptedData.addresses
            createdAt := encryptedData.createdAt
            version := encryptedData.version }

/-- The non-sensitive info object of `getWalletInfo`. -/
structure WalletInfo where
  id : String
  name : String
  createdAt : Nat
  updatedAt : Nat
  version : String
deriving DecidableEq

/-- Embeds `StorageManager.getWalletInfo()`: the first wallet of `getAll`, without
sensitive fields; `null` when none exists. -/
def getWalletInfo (db : DB) : Option WalletInfo :=
  match db.wallets with
  | [] => none
  | w :: _ =>
    some { id := w.id, name := w.name, createdAt := w.createdAt,
           updatedAt := w.updatedAt, version := w.version }

/-- Embeds `StorageManager.clearAll()`: clear `wallets`, `transactions` and
`tokens` (three backend requests, in that order); settings survive. -/
def clearAll (env : Nat → Bool) (db : DB) : DB × Except String Bool :=
  match dbRequest env db (fun d => { d with wallets := [] }) with
  | (db1, .error e) => (db1, .error e)
  | (db1, .ok _) =>
    match dbRequest env db1 (fun d => { d with transactions := [] }) with
    | (db2, .error e) => (db2, .error e)
    | (db2, .ok _) =>
      match dbRequest env db2 (fun d => { d with tokens := [] }) with
      | (db3, .error e) => (db3, .error e)
      | (db3, .ok _) => (db3, .ok true)

/-- The parsed backup document (`JSON.parse` output): any field may be
absent. -/
structure Backup where
  version : Option String
  wallets : Option (List StoredWallet)
  settings : Option (List SettingRec)
  transactions : Option (List TxRec)
  tokens : Option (List TokenRec)
deriving DecidableEq

/-- The `{data, format, version}` object produced by `exportWallet` and
consumed by `importWallet`; only `data` (the encrypted envelope) is read. -/
structure BackupFile where
  data : String
deriving DecidableEq

/-- Sequential `put` of a list of records, stopping at the first rejected
request (the thrown error aborts the surrounding loop). -/
def putList {α : Type} (env : Nat → Bool) (key : α → String) (sel : DB → List α)
    (upd : DB → List α → DB) : DB → List α → DB × Except String Unit
  | db, [] => (db, .ok ())
  | db, x :: xs =>
    match dbRequest env db (fun d => upd d (putByKey key (sel d) x)) with
    | (db', .ok _) => putList env key sel upd db' xs
    | (db', .error e) => (db', .error e)

/-- Embeds `StorageManager.importWallet(backupData, password)`.

Decrypt the envelope (failure propagates), `JSON.parse` it (a syntax error
propagates), check `backup.version` and `backup.wallets` are truthy, then
`clearAll()` and re-`put` every record of each collection in order; any
rejected backend request aborts the loop and propagates, leaving whatever
state the backend reached. -/
def importWalletStore {K : Type} (P : CryptoPrims K) (jsonParse : String → Option Backup)
    (env : Nat → Bool) (db : DB) (backupData : BackupFile) (password : String) :
    DB × Except String Bool :=
  match decrypt P backupData.data password with
  | .error e => (db, .error e)
  | .ok decrypted =>
    match jsonParse decrypted with
    | none => (db, .error "Unexpected token in JSON")
    | some backup =>
      if jsFalsyStr backup.version || backup.wallets.isNone then
        (db, .error "Invalid backup format")
      else
        match clearAll env db with
        | (db1, .error e) => (db1, .error e)
        | (db1, .ok _) =>
          match putList env (fun w => w.id) (fun d => d.wallets)
              (fun d l => { d with wallets := l }) db1 (backup.wallets.getD []) with
          | (db2, .error e) => (db2, .error e)
          | (db2, .ok _) =>
            match (if backup.settings.isSome then
                putList env (fun s => s.key) (fun d => d.settings)
                  (fun d l => { d with settings := l }) db2 (backup.settings.getD [])
              else (db2, .ok ())) with
            | (db3, .error e) => (db3, .error e)
            | (db3, .ok _) =>
              match (if backup.transactions.isSome then
                  putList env (fun t => t.id) (fun d => d.transactions)
                    (fun d l => { d with transactions := l }) db3 (backup.transactions.getD [])
                else (db3, .ok ())) with
              | (db4, .error e) => (db4, .error e)
              | (db4, .ok _) =>
                match (if backup.tokens.isSome then
                    putList env (fun t => t.address) (fun d => d.tokens)
                      (fun d l => { d with tokens := l }) db4 (backup.tokens.getD [])
                  else (db4, .ok ())) with
                | (db5, .error e) => (db5, .error e)
                | (db5, .ok _) => (db5, .ok true)

/-! ## Session manager (`WalletManager`, `src/core/storage.js`)

The chain adapters are external capabilities registered per chain name.
Timers (`startAutoLock`, the 30-second private-key eviction) are real-time
behavior outside the step semantics; no claim below depends on them. -/

/-- An externally supplied chain adapter (the capability subset the
modelled operations use). -/
structure ChainAdapter where
  getAddressFromSeed : List Nat → String
  getPrivateKeyFromMnemonic : String → String

/-- The `WalletManager` instance state. -/
structure WM where
  wallet : Option LoadedWallet
  mnemonic : Option String
  privateKeys : List (String × String)
  chains : List (String × ChainAdapter)
  providers : List String
  isLocked : Bool

/-- Embeds `clearSensitiveData()`: null the mnemonic, clear the private-key cache,
null `wallet.mnemonic` (other wallet fields survive). -/
def clearSensitiveData (wm : WM) : WM :=
  { wm with
    mnemonic := none
    privateKeys := []
    wallet := wm.wallet.map (fun w => { w with mnemonic := none }) }

/-- Embeds `WalletManager.lock()`: clear sensitive data, drop providers, set
`isLocked` (the auto-lock timer is cancelled — outside the model). -/
def lock (wm : WM) : WM :=
  let wm' := clearSensitiveData wm
  { wm' with providers := [], isLocked := true }

/-- Embeds `WalletManager.unlock(password)`: load and decrypt the stored wallet;
on any failure `this.lock()` runs and the error is rethrown; on success the
wallet and mnemonic are installed, providers initialized, and the session
unlocked. -/
def unlock {K : Type} (P : CryptoPrims K) (wm : WM) (db : DB) (password : String) :
    WM × Except String Bool :=
  match getWalletInfo db with
  | none => (lock wm, .error "No wallet found")
  | some info =>
    match loadWallet P db info.id password with
    | .error e => (lock wm, .error e)
    | .ok w =>
      ({ wm with
          wallet := some w
          mnemonic := w.mnemonic
          providers := wm.chains.map Prod.fst
          isLocked := false }, .ok true)

/-- Embeds `WalletManager.getAddress(chain)`: fails `'Wallet is locked'` when
locked; otherwise returns the cached address, failing when the wallet or
the per-chain entry is missing (or the entry is the falsy empty string). -/
def getAddress (wm : WM) (chain : String) : Except String String :=
  if wm.isLocked then .error "Wallet is locked"
  else
    match wm.wallet with
    | none => .error ("No address found for chain: " ++ chain)
    | some w =>
      match w.addresses.find? (fun p => p.1 == chain) with
      | none => .error ("No address found for chain: " ++ chain)
      | some p => if p.2 = "" then .error ("No address found for chain: " ++ chain) else .ok p.2

/-- Embeds `WalletManager.getPrivateKey(chain)`: fails `'Wallet is locked'` when
locked or the mnemonic is falsy; serves from the cache when present, else
derives via the chain adapter and caches (the timed 30-second eviction is
outside the model). -/
def getPrivateKey (wm : WM) (chain : String) : WM × Except String String :=
  if wm.isLocked || jsFalsyStr wm.mnemonic then (wm, .error "Wallet is locked")
  else
    match wm.privateKeys.find? (fun p => p.1 == chain) with
    | some p => (wm, .ok p.2)
    | none =>
      match wm.chains.find? (fun p => p.1 == chain) with
      | none => (wm, .error ("Private key derivation not supported for chain: " ++ chain))
      | some c =>
        let pk := c.2.getPrivateKeyFromMnemonic (wm.mnemonic.getD "")
        ({ wm with privateKeys := wm.privateKeys ++ [(chain, pk)] }, .ok pk)

/-! ## Concrete instances of the external primitives

Small executable stand-ins satisfying the stated properties of the real
primitives (AEAD round trip and authenticity, byte-valued outputs, codec
round trip).  They exist so that every hypothesis-carrying theorem below
can be exercised on fully concrete inputs. -/

/-- A three-byte fixed-width character code (every Unicode scalar value is
below `256^3`). -/
def demoEnc3 (c : Char) : List Nat :=
  [c.toNat / 65536, c.toNat / 256 % 256, c.toNat % 256]

/-- Demo text encoder. -/
def demoUtf8Enc (s : String) : List Nat :=
  s.data.flatMap demoEnc3

/-- Demo text decoder: reads three-byte groups, decoding a short trailing
group byte by byte. -/
def demoDecAux : List Nat → List Char
  | b0 :: b1 :: b2 :: rest => Char.ofNat (b0 * 65536 + b1 * 256 + b2) :: demoDecAux rest
  | [b] => [Char.ofNat b]
  | [b0, b1] => [Char.ofNat b0, Char.ofNat b1]
  | [] => []

/-- Demo text decoder, as a string. -/
def demoUtf8Dec (l : List Nat) : String :=
  ⟨demoDecAux l⟩

/-- Concrete primitives: the key is one byte derived from the password; the
"AEAD" appends the key byte as its tag and checks it on open. -/
def primsDemo : CryptoPrims (Fin 256) where
  kdf := fun pw _salt => ⟨(pw.data.map Char.toNat).sum % 256, Nat.mod_lt _ (by omega)⟩
  aeadSeal := fun k _iv p => p ++ [k.val]
  aeadOpen := fun k _iv c => if c.getLast? = some k.val then some c.dropLast else none
  utf8Enc := demoUtf8Enc
  utf8Dec := demoUtf8Dec

/-- A constant PRF of the right output width (for exercising the PBKDF2
block structure). -/
def prfDemo : List Nat → List Nat → List Nat :=
  fun _ _ => List.replicate 64 0

/-- A wallet record inside the demo backup document. -/
def demoBackupWallet : StoredWallet :=
  { id := "w1", name := "Eterna Wallet", encryptedMnemonic := "x", addresses := [],
    createdAt := 0, updatedAt := 0, version := "1.0.0" }

/-- The demo backup document. -/
def demoBackup : Backup :=
  { version := some "1.0.0", wallets := some [demoBackupWallet],
    settings := none, transactions := none, tokens := none }

/-- A demo `JSON.parse`: the document `"B"` parses to `demoBackup`. -/
def demoJsonParse : String → Option Backup :=
  fun s => if s = "B" then some demoBackup else none

/-- With `primsDemo` and password `"p"` (key byte 112), an envelope that
decrypts to the string `"B"`: 16 salt bytes, 12 IV bytes, then the sealed
bytes `demoUtf8Enc "B" ++ [112] = [0, 0, 66, 112]`. -/
def demoEnvelopeB : String :=
  arrayBufferToBase64 (List.replicate 28 0 ++ [0, 0, 66, 112])

/-- The demo backup file wrapping that envelope. -/
def demoBackupFile : BackupFile := ⟨demoEnvelopeB⟩

/-- A pre-existing wallet record, to be destroyed by the faulty import. -/
def demoOldWallet : StoredWallet :=
  { id := "old", name := "Old", encryptedMnemonic := "y",
    addresses := [("ethereum", "0xabc")], createdAt := 1, updatedAt := 1, version := "1.0.0" }

/-- A pre-existing database with a wallet, a transaction and a token. -/
def demoDbOld : DB :=
  { wallets := [demoOldWallet], settings := [], transactions := [⟨"t1", "d"⟩],
    tokens := [⟨"a1", "d"⟩], ops := 0 }

/-- A backend schedule whose first three requests (the three clears)
succeed and whose fourth request (the first wallet `put`) rejects. -/
def demoEnvFailPut : Nat → Bool := fun n => n < 3

/-- A backend schedule on which every request succeeds. -/
def envOk : Nat → Bool := fun _ => true

/-- A stored wallet whose mnemonic decrypts (under `primsDemo` and
password `"p"`) to `"B"`. -/
def demoStoredWallet : StoredWallet :=
  { id := "w1", name := "Eterna Wallet", encryptedMnemonic := demoEnvelopeB,
    addresses := [("ethereum", "0xabc")], createdAt := 0, updatedAt := 0,
    version := "1.0.0" }

/-- A database holding just that wallet. -/
def demoDbWallet : DB :=
  { wallets := [demoStoredWallet], settings := [], transactions := [], tokens := [],
    ops := 0 }

/-- A fresh, locked session-manager state with no registered chains. -/
def wmDemo0 : WM :=
  { wallet := none, mnemonic := none, privateKeys := [], chains := [],
    providers := [], isLocked := true }

/-- The envelope `encrypt` produces (under `primsDemo`, the all-zero random
stream and password `"p"`) for the byte payload `[1, 2, 3]`. -/
def demoEnvelope123 : String :=
  arrayBufferToBase64 (List.replicate 28 0 ++ [1, 2, 3, 112])

/-- The wallet object `loadWallet` returns for `demoStoredWallet` under
password `"p"`. -/
def demoLoadedWallet : LoadedWallet :=
  { id := "w1", name := "Eterna Wallet", mnemonic := some "B",
    addresses := [("ethereum", "0xabc")], createdAt := 0, version := "1.0.0" }

/-- The session state after a successful `unlock` from `wmDemo0` against
`demoDbWallet` with password `"p"`. -/
def wmDemo1 : WM :=
  { wallet := some demoLoadedWallet, mnemonic := some "B", privateKeys := [],
    chains := [], providers := [], isLocked := false }

/-- A caller-side wallet record still holding its plaintext mnemonic. -/
def demoWalletIn : WalletIn :=
  { id := none, name := none, mnemonic := some "B",
    addresses := [("ethereum", "0xabc")], createdAt := 5 }

/-! ## Helper lemmas -/

theorem b64Index_b64Ch : ∀ v : Nat, v < 64 → b64Index (b64Ch v) = some v := by decide

theorem b64Ch_ne_pad : ∀ v : Nat, v < 64 → b64Ch v ≠ '=' := by decide

theorem b64_decode_encode : ∀ l : List Nat, (∀ x ∈ l, x < 256) →
    b64DecodeGroups (b64EncodeGroups l) = some l
  | [], _ => rfl
  | [a], h => by
    have ha : a < 256 := h a (by simp)
    simp only [b64EncodeGroups, b64DecodeGroups]
    rw [if_pos (by simp), b64Index_b64Ch (a / 4) (by omega),
      b64Index_b64Ch (a % 4 * 16) (by omega)]
    have hx : a / 4 * 4 + a % 4 * 16 / 16 = a := by omega
    dsimp only
    rw [hx]
  | [a, b], h => by
    have ha : a < 256 := h a (by simp)
    have hb : b < 256 := h b (by simp)
    simp only [b64EncodeGroups, b64DecodeGroups]
    rw [if_neg (fun hcon => b64Ch_ne_pad (b % 16 * 4) (by omega) hcon.1),
      if_pos (by simp), b64Index_b64Ch (a / 4) (by omega),
      b64Index_b64Ch (a % 4 * 16 + b / 16) (by omega),
      b64Index_b64Ch (b % 16 * 4) (by omega)]
    have hx : a / 4 * 4 + (a % 4 * 16 + b / 16) / 16 = a := by omega
    have hy : (a % 4 * 16 + b / 16) % 16 * 16 + b % 16 * 4 / 4 = b := by omega
    dsimp only
    rw [hx, hy]
  | a :: b :: c :: rest, h => by
    have ha : a < 256 := h a (by simp)
    have hb : b < 256 := h b (by simp)
    have hc : c < 256 := h c (by simp)
    simp only [b64EncodeGroups, b64DecodeGroups]
    rw [if_neg (fun hcon => b64Ch_ne_pad (b % 16 * 4 + c / 64) (by omega) hcon.1),
      if_neg (fun hcon => b64Ch_ne_pad (c % 64) (by omega) hcon.1),
      b64Index_b64Ch (a / 4) (by omega),
      b64Index_b64Ch (a % 4 * 16 + b / 16) (by omega),
      b64Index_b64Ch (b % 16 * 4 + c / 64) (by omega),
      b64Index_b64Ch (c % 64) (by omega),
      b64_decode_encode rest (fun x hx => h x (by simp [hx]))]
    have hx : a / 4 * 4 + (a % 4 * 16 + b / 16) / 16 = a := by omega
    have hy : (a % 4 * 16 + b / 16) % 16 * 16 + (b % 16 * 4 + c / 64) / 4 = b := by omega
    have hz : (b % 16 * 4 + c / 64) % 4 * 64 + c % 64 = c := by omega
    dsimp only
    rw [hx, hy, hz]

theorem base64_roundtrip (l : List Nat) (h : ∀ x ∈ l, x < 256) :
    base64ToArrayBuffer (arrayBufferToBase64 l) = some l :=
  b64_decode_encode l h

theorem rngBytes_length (rng : Nat → Nat) (start len : Nat) :
    (rngBytes rng start len).length = len := by
  simp [rngBytes]

theorem rngBytes_lt (rng : Nat → Nat) (start len : Nat) :
    ∀ x ∈ rngBytes rng start len, x < 256 := by
  intro x hx
  simp only [rngBytes, List.mem_map] at hx
  obtain ⟨i, _, rfl⟩ := hx
  omega

/-- The bytes of an envelope body `salt ‖ iv ‖ sealed` are below 256. -/
theorem envelopeBody_lt {K : Type} (P : CryptoPrims K) (hAB : AeadBytes P)
    (rng : Nat → Nat) (k : K) (pt : List Nat) (hpt : ∀ x ∈ pt, x < 256) :
    ∀ x ∈ rngBytes rng 0 saltSizeCfg ++ rngBytes rng saltSizeCfg ivSizeCfg ++
      P.aeadSeal k (rngBytes rng saltSizeCfg ivSizeCfg) pt, x < 256 := by
  intro x hx
  simp only [List.mem_append] at hx
  rcases hx with (hx | hx) | hx
  · exact rngBytes_lt _ _ _ x hx
  · exact rngBytes_lt _ _ _ x hx
  · exact hAB _ _ _ hpt x hx

/-- What a successful `encrypt` returns, and that `decrypt` (with the same
password) recovers the decoded plaintext from it. -/
theorem decrypt_encrypt {K : Type} (P : CryptoPrims K) (rng : Nat → Nat)
    (data : JSData) (pw : String) (hA : AeadRoundTrip P) (hAB : AeadBytes P)
    (hpt : ∀ x ∈ dataBytesOf P data, x < 256) (hpw : pw ≠ "") :
    encrypt P rng data pw = .ok
      { envelope := arrayBufferToBase64 (rngBytes rng 0 saltSizeCfg ++
          rngBytes rng saltSizeCfg ivSizeCfg ++
          P.aeadSeal (P.kdf pw (rngBytes rng 0 saltSizeCfg))
            (rngBytes rng saltSizeCfg ivSizeCfg) (dataBytesOf P data))
        dataAfter := zeroBufferJs (dataBufferOf P data) } ∧
    decrypt P (arrayBufferToBase64 (rngBytes rng 0 saltSizeCfg ++
        rngBytes rng saltSizeCfg ivSizeCfg ++
        P.aeadSeal (P.kdf pw (rngBytes rng 0 saltSizeCfg))
          (rngBytes rng saltSizeCfg ivSizeCfg) (dataBytesOf P data))) pw =
      .ok (P.utf8Dec (dataBytesOf P data)) := by
  constructor
  · simp [encrypt, hpw, dataBytesOf]
  · have hbody := envelopeBody_lt P hAB rng (P.kdf pw (rngBytes rng 0 saltSizeCfg))
      (dataBytesOf P data) hpt
    have hb64 := base64_roundtrip _ hbody
    simp only [decrypt, hb64]
    have hsalt : List.take saltSizeCfg (rngBytes rng 0 saltSizeCfg ++
        rngBytes rng saltSizeCfg ivSizeCfg ++
        P.aeadSeal (P.kdf pw (rngBytes rng 0 saltSizeCfg))
          (rngBytes rng saltSizeCfg ivSizeCfg) (dataBytesOf P data)) =
        rngBytes rng 0 saltSizeCfg := by
      rw [List.append_assoc]
      exact List.take_left' (rngBytes_length rng 0 saltSizeCfg)
    have hiv : List.take ivSizeCfg (List.drop saltSizeCfg
        (rngBytes rng 0 saltSizeCfg ++ rngBytes rng saltSizeCfg ivSizeCfg ++
        P.aeadSeal (P.kdf pw (rngBytes rng 0 saltSizeCfg))
          (rngBytes rng saltSizeCfg ivSizeCfg) (dataBytesOf P data))) =
        rngBytes rng saltSizeCfg ivSizeCfg := by
      rw [List.append_assoc, List.drop_left' (rngBytes_length rng 0 saltSizeCfg),
        List.take_left' (rngBytes_length rng saltSizeCfg ivSizeCfg)]
    have hct : List.drop (saltSizeCfg + ivSizeCfg)
        (rngBytes rng 0 saltSizeCfg ++ rngBytes rng saltSizeCfg ivSizeCfg ++
        P.aeadSeal (P.kdf pw (rngBytes rng 0 saltSizeCfg))
          (rngBytes rng saltSizeCfg ivSizeCfg) (dataBytesOf P data)) =
        P.aeadSeal (P.kdf pw (rngBytes rng 0 saltSizeCfg))
          (rngBytes rng saltSizeCfg ivSizeCfg) (dataBytesOf P data) := by
      refine List.drop_left' ?_
      rw [List.length_append, rngBytes_length, rngBytes_length]
    rw [hsalt, hiv, hct, if_neg hpw, hA]

/-- Any successful `decrypt` of a well-formed envelope reduces to opening
the ciphertext found at the fixed offsets. -/
theorem decrypt_of_envelope {K : Type} (P : CryptoPrims K) (salt iv ct : List Nat)
    (pw : String) (hs : salt.length = saltSizeCfg) (hi : iv.length = ivSizeCfg)
    (hbytes : ∀ x ∈ salt ++ iv ++ ct, x < 256) (hpw : pw ≠ "") :
    decrypt P (arrayBufferToBase64 (salt ++ iv ++ ct)) pw =
      match P.aeadOpen (P.kdf pw salt) iv ct with
      | none => .error decryptFailedMsg
      | some d => .ok (P.utf8Dec d) := by
  have hb64 := base64_roundtrip _ hbytes
  simp only [decrypt, hb64]
  have hsalt : List.take saltSizeCfg (salt ++ iv ++ ct) = salt := by
    rw [List.append_assoc]; exact List.take_left' hs
  have hiv2 : List.take ivSizeCfg (List.drop saltSizeCfg (salt ++ iv ++ ct)) = iv := by
    rw [List.append_assoc, List.drop_left' hs, List.take_left' hi]
  have hct : List.drop (saltSizeCfg + ivSizeCfg) (salt ++ iv ++ ct) = ct := by
    refine List.drop_left' ?_
    rw [List.length_append, hs, hi]
  rw [hsalt, hiv2, hct, if_neg hpw]

/-- What a successful `encrypt` call returns, explicitly. -/
theorem encrypt_ok {K : Type} (P : CryptoPrims K) (rng : Nat → Nat)
    (data : JSData) (pw : String) (hpw : pw ≠ "") :
    encrypt P rng data pw = .ok
      { envelope := arrayBufferToBase64 (rngBytes rng 0 saltSizeCfg ++
          rngBytes rng saltSizeCfg ivSizeCfg ++
          P.aeadSeal (P.kdf pw (rngBytes rng 0 saltSizeCfg))
            (rngBytes rng saltSizeCfg ivSizeCfg) (dataBytesOf P data))
        dataAfter := zeroBufferJs (dataBufferOf P data) } := by
  simp [encrypt, hpw, dataBytesOf]

/-! ## The concrete primitives satisfy the assumed properties -/

theorem primsDemo_aeadRoundTrip : AeadRoundTrip primsDemo := by
  intro k iv p
  simp [primsDemo, List.getLast?_concat, List.dropLast_concat]

theorem primsDemo_aeadAuth : AeadAuth primsDemo := by
  intro k k' iv p hne
  have hv : k.val ≠ k'.val := fun h => hne (Fin.val_injective h)
  simp [primsDemo, List.getLast?_concat, hv]

theorem primsDemo_aeadBytes : AeadBytes primsDemo := by
  intro k iv p hp x hx
  simp only [primsDemo, List.mem_append, List.mem_singleton] at hx
  rcases hx with hx | rfl
  · exact hp x hx
  · exact k.isLt

theorem primsDemo_utf8RoundTrip : Utf8RoundTrip primsDemo := by
  intro s
  have hlist : ∀ cs : List Char, demoDecAux (cs.flatMap demoEnc3) = cs := by
    intro cs
    induction cs with
    | nil => rfl
    | cons c cs ih =>
      show demoDecAux (demoEnc3 c ++ cs.flatMap demoEnc3) = c :: cs
      simp only [demoEnc3, List.cons_append, List.nil_append, demoDecAux]
      have h1 : c.toNat / 65536 * 65536 + c.toNat / 256 % 256 * 256 + c.toNat % 256 =
          c.toNat := by omega
      rw [h1, Char.ofNat_toNat]
      show c :: demoDecAux (cs.flatMap demoEnc3) = c :: cs
      rw [ih]
  calc primsDemo.utf8Dec (primsDemo.utf8Enc s)
      = ⟨demoDecAux (s.data.flatMap demoEnc3)⟩ := rfl
    _ = ⟨s.data⟩ := by rw [hlist]
    _ = s := rfl

theorem char_toNat_lt (c : Char) : c.toNat < 1114112 := by
  rcases c.valid with h | ⟨_, h⟩
  · exact Nat.lt_trans h (by norm_num)
  · exact h

theorem primsDemo_utf8Bytes : Utf8Bytes primsDemo := by
  intro s x hx
  simp only [primsDemo, demoUtf8Enc, List.mem_flatMap] at hx
  obtain ⟨c, _, hc⟩ := hx
  have hv := char_toNat_lt c
  simp only [demoEnc3, List.mem_cons, List.mem_singleton, List.not_mem_nil, or_false] at hc
  rcases hc with rfl | rfl | rfl <;> omega

/-! ## Claim theorems -/

/-- Claim C2 counterexample: the round trip is not the identity on byte
payloads — decrypting what `encrypt` produced for the `Uint8Array` payload
`[255]` under the same password returns a decoded JS string, not the byte
array, so the claim as stated fails at this input. -/
theorem c2_round_trip_counterexample :
    cipherRoundTrip primsDemo (fun _ => 0) (JSData.bytes [255]) "p" "p" ≠
      some (JSData.bytes [255]) := by decide

/-- Claim C2 (amended): for every string plaintext and nonempty password,
`decrypt(encrypt(plaintext, password), password)` returns the original
string; a `Uint8Array` payload comes back as the decoded string
`TextDecoder().decode(bytes)` — a string value, not the original byte
array.  (With the empty password both calls throw, since `deriveKey`
rejects a falsy password.) -/
theorem c2_round_trip_amended {K : Type} (P : CryptoPrims K) (rng : Nat → Nat)
    (pw : String) (hA : AeadRoundTrip P) (hAB : AeadBytes P) (hU : Utf8RoundTrip P)
    (hUB : Utf8Bytes P) (hpw : pw ≠ "") :
    (∀ s, cipherRoundTrip P rng (.str s) pw pw = some (.str s)) ∧
    (∀ b, (∀ x ∈ b, x < 256) →
      cipherRoundTrip P rng (.bytes b) pw pw = some (.str (P.utf8Dec b))) := by
  constructor
  · intro s
    obtain ⟨henc, hdec⟩ :=
      decrypt_encrypt P rng (.str s) pw hA hAB (fun x hx => hUB s x hx) hpw
    simp only [cipherRoundTrip, henc, hdec]
    rw [show dataBytesOf P (.str s) = P.utf8Enc s from rfl, hU]
  · intro b hb
    obtain ⟨henc, hdec⟩ := decrypt_encrypt P rng (.bytes b) pw hA hAB hb hpw
    simp only [cipherRoundTrip, henc, hdec]
    rfl

/-- Claim C2 witness: the amended round trip at a concrete input. -/
theorem c2_round_trip_amended_witness :
    cipherRoundTrip primsDemo (fun _ => 0) (.str "hi") "p" "p" = some (.str "hi") :=
  (c2_round_trip_amended primsDemo (fun _ => 0) "p" primsDemo_aeadRoundTrip
    primsDemo_aeadBytes primsDemo_utf8RoundTrip primsDemo_utf8Bytes (by decide)).1 "hi"

/-- Claim C3: decrypting under a password whose derived key differs from
the encryption key fails with the single decryption-failure error, and
every failure `decrypt` ever raises — wrong password, corrupted base64, or
a tampered ciphertext — is that same error, so the failures are
indistinguishable. -/
theorem c3_wrong_password_uniform_failure {K : Type} (P : CryptoPrims K)
    (rng : Nat → Nat) (data : JSData) (pw1 pw2 : String) (hAuth : AeadAuth P)
    (hAB : AeadBytes P) (hpt : ∀ x ∈ dataBytesOf P data, x < 256)
    (hpw1 : pw1 ≠ "") (hpw2 : pw2 ≠ "")
    (hk : P.kdf pw1 (rngBytes rng 0 saltSizeCfg) ≠ P.kdf pw2 (rngBytes rng 0 saltSizeCfg)) :
    (∀ r, encrypt P rng data pw1 = .ok r →
      decrypt P r.envelope pw2 = .error decryptFailedMsg) ∧
    (∀ e pw msg, decrypt P e pw = .error msg → msg = decryptFailedMsg) := by
  constructor
  · intro r hr
    rw [encrypt_ok P rng data pw1 hpw1] at hr
    obtain rfl := (Except.ok.inj hr).symm
    have hbody := envelopeBody_lt P hAB rng (P.kdf pw1 (rngBytes rng 0 saltSizeCfg))
      (dataBytesOf P data) hpt
    dsimp only
    rw [decrypt_of_envelope P _ _ _ pw2 (rngBytes_length rng 0 saltSizeCfg)
        (rngBytes_length rng saltSizeCfg ivSizeCfg) hbody hpw2,
      hAuth _ _ _ _ hk]
  · intro e pw msg h
    cases hb : base64ToArrayBuffer e with
    | none =>
      simp only [decrypt, hb] at h
      exact (Except.error.inj h).symm ▸ rfl
    | some buf =>
      simp only [decrypt, hb] at h
      by_cases hpw : pw = ""
      · rw [if_pos hpw] at h
        exact (Except.error.inj h).symm ▸ rfl
      · rw [if_neg hpw] at h
        cases ho : P.aeadOpen (P.kdf pw (List.take saltSizeCfg buf))
            ((List.drop saltSizeCfg buf).take ivSizeCfg)
            (List.drop (saltSizeCfg + ivSizeCfg) buf) with
        | none => rw [ho] at h; exact (Except.error.inj h).symm ▸ rfl
        | some d => rw [ho] at h; cases h

/-- Claim C3 witness: decrypting the envelope sealed under `"p"` with the
password `"q"` fails with the uniform error. -/
theorem c3_wrong_password_uniform_failure_witness :
    decrypt primsDemo demoEnvelopeB "q" = .error decryptFailedMsg :=
  (c3_wrong_password_uniform_failure primsDemo (fun _ => 0) (.str "B") "p" "q"
    primsDemo_aeadAuth primsDemo_aeadBytes (by decide) (by decide) (by decide)
    (by decide)).1 ⟨demoEnvelopeB, zeroBufferJs (dataBufferOf primsDemo (.str "B"))⟩
    rfl

/-- Claim C8: a successful `encrypt` returns the base64 encoding of
`salt ‖ iv ‖ ciphertext‖tag`, with the salt exactly the first 16 bytes and
the IV exactly the next 12; decoding the envelope and slicing at the fixed
offsets `0..16`, `16..28`, `28..` recovers the three fields, and `decrypt`
needs nothing beyond the envelope and the password to succeed
(self-describing). -/
theorem c8_envelope_format {K : Type} (P : CryptoPrims K) (rng : Nat → Nat)
    (data : JSData) (pw : String) (hA : AeadRoundTrip P) (hAB : AeadBytes P)
    (hpt : ∀ x ∈ dataBytesOf P data, x < 256) (hpw : pw ≠ "") :
    ∀ r, encrypt P rng data pw = .ok r →
      base64ToArrayBuffer r.envelope =
        some (rngBytes rng 0 saltSizeCfg ++ rngBytes rng saltSizeCfg ivSizeCfg ++
          P.aeadSeal (P.kdf pw (rngBytes rng 0 saltSizeCfg))
            (rngBytes rng saltSizeCfg ivSizeCfg) (dataBytesOf P data)) ∧
      (rngBytes rng 0 saltSizeCfg).length = 16 ∧
      (rngBytes rng saltSizeCfg ivSizeCfg).length = 12 ∧
      (∀ buf, base64ToArrayBuffer r.envelope = some buf →
        buf.take saltSizeCfg = rngBytes rng 0 saltSizeCfg ∧
        (buf.drop saltSizeCfg).take ivSizeCfg = rngBytes rng saltSizeCfg ivSizeCfg ∧
        buf.drop (saltSizeCfg + ivSizeCfg) = P.aeadSeal (P.kdf pw (rngBytes rng 0 saltSizeCfg))
          (rngBytes rng saltSizeCfg ivSizeCfg) (dataBytesOf P data)) ∧
      decrypt P r.envelope pw = .ok (P.utf8Dec (dataBytesOf P data)) := by
  intro r hr
  rw [encrypt_ok P rng data pw hpw] at hr
  obtain rfl := (Except.ok.inj hr).symm
  have hbody := envelopeBody_lt P hAB rng (P.kdf pw (rngBytes rng 0 saltSizeCfg))
    (dataBytesOf P data) hpt
  have hb64 := base64_roundtrip _ hbody
  refine ⟨hb64, (rngBytes_length rng 0 saltSizeCfg).trans rfl,
    (rngBytes_length rng saltSizeCfg ivSizeCfg).trans rfl, ?_, ?_⟩
  · intro buf hbuf
    rw [hb64] at hbuf
    obtain rfl := (Option.some.inj hbuf).symm
    refine ⟨?_, ?_, ?_⟩
    · rw [List.append_assoc]
      exact List.take_left' (rngBytes_length rng 0 saltSizeCfg)
    · rw [List.append_assoc,
        List.drop_left' (rngBytes_length rng 0 saltSizeCfg),
        List.take_left' (rngBytes_length rng saltSizeCfg ivSizeCfg)]
    · refine List.drop_left' ?_
      rw [List.length_append, rngBytes_length, rngBytes_length]
  · exact (decrypt_encrypt P rng data pw hA hAB hpt hpw).2

/-- Claim C8 witness: the envelope produced for the plaintext `"B"` under
password `"p"` decrypts back to `"B"` from the envelope alone. -/
theorem c8_envelope_format_witness :
    decrypt primsDemo demoEnvelopeB "p" = .ok "B" :=
  ((c8_envelope_format primsDemo (fun _ => 0) (.str "B") "p" primsDemo_aeadRoundTrip
    primsDemo_aeadBytes (by decide) (by decide)
    ⟨demoEnvelopeB, zeroBufferJs (dataBufferOf primsDemo (.str "B"))⟩
    rfl).2.2.2.2)

/-- Claim C10: calling `encrypt` with a `Uint8Array` zeroes the caller's
underlying buffer — after a successful call every byte of the buffer the
caller passed in equals 0 (the `zeroBuffer(dataBuffer)` cleanup acts on
`data.buffer`, the caller's own `ArrayBuffer`). -/
theorem c10_encrypt_zeroes_caller_buffer {K : Type} (P : CryptoPrims K)
    (rng : Nat → Nat) (b : List Nat) (pw : String) (hpw : pw ≠ "") :
    ∀ r, encrypt P rng (.bytes b) pw = .ok r →
      r.dataAfter = .arrayBuffer (List.replicate b.length 0) ∧
      ∀ x ∈ jsBufBytes r.dataAfter, x = 0 := by
  intro r hr
  rw [encrypt_ok P rng (.bytes b) pw hpw] at hr
  obtain rfl := (Except.ok.inj hr).symm
  refine ⟨rfl, ?_⟩
  intro x hx
  exact List.eq_of_mem_replicate hx

/-- Claim C10 witness: encrypting the concrete payload `[1, 2, 3]` leaves
the caller's buffer all zeros. -/
theorem c10_encrypt_zeroes_caller_buffer_witness :
    (⟨demoEnvelope123, JsBuf.arrayBuffer (List.replicate 3 0)⟩ : EncryptResult).dataAfter =
      JsBuf.arrayBuffer (List.replicate 3 0) :=
  (c10_encrypt_zeroes_caller_buffer primsDemo (fun _ => 0) [1, 2, 3] "p" (by decide)
    ⟨demoEnvelope123, JsBuf.arrayBuffer (List.replicate 3 0)⟩ rfl).1

set_option maxRecDepth 8000 in
/-- Claim C1 (bug evidence): at word count 12 with all-zero entropy,
`generateMnemonic` returns the twelve-word all-`"abandon"` phrase and
`validateMnemonic` rejects it with `'Invalid checksum'` — the generated
phrase does not satisfy `validate(...).valid == true`.  The `sha256` helper
returns a `Promise` that `entropyToMnemonic` and `verifyChecksum` use
synchronously, so no checksum bits are ever computed and the comparison
against the empty expected-checksum array fails for every phrase. -/
theorem c1_generated_phrase_fails_validate :
    generateMnemonic 12 (fun _ => 0) = .ok zeroPhrase12 ∧
    validateMnemonic (.str zeroPhrase12) = ⟨false, some "Invalid checksum"⟩ :=
  ⟨rfl, rfl⟩

/-- Every `validateMnemonic` result is either a success or carries an error
message. -/
theorem validate_result_char (input : JSInput) :
    (validateMnemonic input).valid = true ∨
      ((validateMnemonic input).error).isSome = true := by
  cases input with
  | nonString => right; rfl
  | str s =>
    unfold validateMnemonic
    dsimp only
    split
    · right; rfl
    · split
      · right; rfl
      · split
        · right; rfl
        · split
          · right; rfl
          · split
            · left; rfl
            · right; rfl

/-- Claim C9: `validateMnemonic` never throws — the embedding is a total
function over arbitrary JS inputs (non-strings included), every internal
throw being caught — and every failing input carries a specific reason:
whenever `valid` is `false`, the `error` field is present. -/
theorem c9_validate_fails_closed (input : JSInput)
    (h : (validateMnemonic input).valid = false) :
    ((validateMnemonic input).error).isSome = true := by
  rcases validate_result_char input with hv | he
  · rw [h] at hv
    exact absurd hv (by simp)
  · exact he

/-- Claim C9 witness: the empty string fails with a present reason. -/
theorem c9_validate_fails_closed_witness :
    (validateMnemonic (JSInput.str "")).valid = false ∧
    ((validateMnemonic (JSInput.str "")).error).isSome = true :=
  ⟨rfl, c9_validate_fails_closed (JSInput.str "") rfl⟩

/-- Claim C4: a successful `saveWallet` writes exactly one record into the
`wallets` store — `savedRecordOf`, which carries only the ciphertext
`encryptedMnemonic` and has no plaintext-mnemonic field — leaves the other
collections untouched, and hands the caller back their record with the
`mnemonic` field nulled. -/
theorem c4_saveWallet_persists_only_ciphertext {K : Type} (P : CryptoPrims K)
    (rng : Nat → Nat) (env : Nat → Bool) (db : DB) (walletData : WalletIn)
    (pw freshId : String) (now : Nat) (m : String)
    (hm : walletData.mnemonic = some m) (henv : env db.ops = true) :
    ∀ r, encrypt P rng (.str m) pw = .ok r →
      saveWallet P rng env db walletData pw freshId now =
        ({ db with
            wallets := putByKey (fun w => w.id) db.wallets
              (savedRecordOf walletData freshId now r.envelope)
            ops := db.ops + 1 },
          { walletData with mnemonic := none },
          .ok (jsOrStr walletData.id freshId)) := by
  intro r hr
  simp only [saveWallet, hm, hr, dbRequest, henv, if_true]
  rfl

/-- Claim C4 witness: saving a concrete wallet record. -/
theorem c4_saveWallet_persists_only_ciphertext_witness :
    saveWallet primsDemo (fun _ => 0) envOk demoDbOld demoWalletIn "p" "fresh" 7 =
      ({ demoDbOld with
          wallets := putByKey (fun w => w.id) demoDbOld.wallets
            (savedRecordOf demoWalletIn "fresh" 7 demoEnvelopeB)
          ops := demoDbOld.ops + 1 },
        { demoWalletIn with mnemonic := none },
        .ok (jsOrStr demoWalletIn.id "fresh")) :=
  c4_saveWallet_persists_only_ciphertext primsDemo (fun _ => 0) envOk demoDbOld
    demoWalletIn "p" "fresh" 7 "B" rfl rfl
    ⟨demoEnvelopeB, JsBuf.uint8 [0, 0, 66]⟩ rfl

/-- Embeds `getAddress` depends only on the lock flag and the wallet object. -/
theorem getAddress_congr (wm wm' : WM) (hl : wm.isLocked = wm'.isLocked)
    (hw : wm.wallet = wm'.wallet) :
    ∀ chain, getAddress wm chain = getAddress wm' chain := by
  intro chain
  unfold getAddress
  rw [hl, hw]

/-- Claim C5: after `lock()` on a session reached by a successful unlock,
`getAddress` and `getPrivateKey` fail with `'Wallet is locked'` (and leave
the state unchanged, so every subsequent call keeps failing until an
unlock); a subsequent `unlock` with the same password against the unchanged
store succeeds and `getAddress` returns the same address for every chain as
before locking. -/
theorem c5_lock_unlock_addresses {K : Type} (P : CryptoPrims K) (wm0 wm1 : WM)
    (db : DB) (pw : String) (h : unlock P wm0 db pw = (wm1, .ok true)) :
    (∀ chain, getAddress (lock wm1) chain = .error "Wallet is locked") ∧
    (∀ chain, getPrivateKey (lock wm1) chain = (lock wm1, .error "Wallet is locked")) ∧
    (unlock P (lock wm1) db pw).2 = .ok true ∧
    (∀ chain, getAddress ((unlock P (lock wm1) db pw).1) chain = getAddress wm1 chain) := by
  cases hinfo : getWalletInfo db with
  | none => simp only [unlock, hinfo] at h; exact absurd h (by simp)
  | some info =>
    cases hload : loadWallet P db info.id pw with
    | error e => simp only [unlock, hinfo, hload] at h; exact absurd h (by simp)
    | ok w =>
      simp only [unlock, hinfo, hload] at h
      obtain ⟨hw, -⟩ := Prod.mk.inj h
      subst hw
      refine ⟨fun chain => rfl, fun chain => rfl, ?_, ?_⟩
      · simp only [unlock, hinfo, hload]
      · intro chain
        simp only [unlock, hinfo, hload]
        exact getAddress_congr _ _ rfl rfl chain

set_option maxRecDepth 8000 in
/-- Claim C5 witness: a concrete unlock–lock–unlock run reproduces the
ethereum address. -/
theorem c5_lock_unlock_addresses_witness :
    unlock primsDemo wmDemo0 demoDbWallet "p" = (wmDemo1, .ok true) ∧
    getAddress (lock wmDemo1) "ethereum" = .error "Wallet is locked" ∧
    getPrivateKey (lock wmDemo1) "ethereum" = (lock wmDemo1, .error "Wallet is locked") ∧
    (unlock primsDemo (lock wmDemo1) demoDbWallet "p").2 = .ok true ∧
    getAddress ((unlock primsDemo (lock wmDemo1) demoDbWallet "p").1) "ethereum" =
      getAddress wmDemo1 "ethereum" := by
  have h : unlock primsDemo wmDemo0 demoDbWallet "p" = (wmDemo1, .ok true) := rfl
  obtain ⟨h1, h2, h3, h4⟩ :=
    c5_lock_unlock_addresses primsDemo wmDemo0 wmDemo1 demoDbWallet "p" h
  exact ⟨h, h1 "ethereum", h2 "ethereum", h3, h4 "ethereum"⟩

set_option maxRecDepth 8000 in
/-- Claim C6 counterexample: with a backend whose fourth request (the first
`put` after the three clears) rejects, the import fails *and* the
pre-existing wallet record is gone — a failed backup import does not always
leave existing data untouched, because `importWallet` clears the stores
before re-inserting and has no transactional write-new-then-swap. -/
theorem c6_partial_replace_counterexample :
    (importWalletStore primsDemo demoJsonParse demoEnvFailPut demoDbOld
      demoBackupFile "p").2 = .error "StorageError" ∧
    (importWalletStore primsDemo demoJsonParse demoEnvFailPut demoDbOld
      demoBackupFile "p").1.wallets = [] ∧
    demoDbOld.wallets = [demoOldWallet] :=
  ⟨rfl, rfl, rfl⟩

/-- Claim C6 (amended): a backup import that fails before any storage
write — wrong password (decryption failure), malformed backup (parse
failure), or invalid format — leaves every collection exactly as it was;
and a failed `unlock` leaves the session locked, with no mnemonic and an
empty private-key cache.  (A storage write error part-way through the
re-import, after the initial clear, can still leave a partial replace —
see the counterexample.) -/
theorem c6_failed_import_preserves_data {K : Type} (P : CryptoPrims K)
    (jsonParse : String → Option Backup) (env : Nat → Bool) (db : DB)
    (backupData : BackupFile) (pw : String) :
    (∀ e, decrypt P backupData.data pw = .error e →
      importWalletStore P jsonParse env db backupData pw = (db, .error e)) ∧
    (∀ s, decrypt P backupData.data pw = .ok s → jsonParse s = none →
      importWalletStore P jsonParse env db backupData pw =
        (db, .error "Unexpected token in JSON")) ∧
    (∀ s b, decrypt P backupData.data pw = .ok s → jsonParse s = some b →
      (jsFalsyStr b.version || b.wallets.isNone) = true →
      importWalletStore P jsonParse env db backupData pw =
        (db, .error "Invalid backup format")) ∧
    (∀ (wm : WM) (pw' : String) e, (unlock P wm db pw').2 = .error e →
      (unlock P wm db pw').1.isLocked = true ∧ (unlock P wm db pw').1.mnemonic = none ∧
      (unlock P wm db pw').1.privateKeys = []) := by
  refine ⟨?_, ?_, ?_, ?_⟩
  · intro e he
    simp only [importWalletStore, he]
  · intro s hs hp
    simp only [importWalletStore, hs, hp]
  · intro s b hs hp hv
    simp only [importWalletStore, hs, hp]
    rw [if_pos hv]
  · intro wm pw' e he
    cases hinfo : getWalletInfo db with
    | none => simp only [unlock, hinfo]; exact ⟨rfl, rfl, rfl⟩
    | some info =>
      cases hload : loadWallet P db info.id pw' with
      | error e2 => simp only [unlock, hinfo, hload]; exact ⟨rfl, rfl, rfl⟩
      | ok w =>
        simp only [unlock, hinfo, hload] at he
        exact absurd he (by simp)

set_option maxRecDepth 8000 in
/-- Claim C6 witness: importing with the wrong password leaves the store
byte-for-byte unchanged. -/
theorem c6_failed_import_preserves_data_witness :
    importWalletStore primsDemo demoJsonParse envOk demoDbOld demoBackupFile "q" =
      (demoDbOld, .error decryptFailedMsg) :=
  (c6_failed_import_preserves_data primsDemo demoJsonParse envOk demoDbOld
    demoBackupFile "q").1 decryptFailedMsg rfl

theorem xorBytes_length (a b : List Nat) :
    (xorBytes a b).length = min a.length b.length := by
  simp [xorBytes]

theorem pbkdf2Iter_length (prf : List Nat → List Nat → List Nat) (pw : List Nat)
    (hprf : ∀ k d, (prf k d).length = 64) :
    ∀ (n : Nat) (acc u : List Nat), acc.length = 64 →
      (pbkdf2Iter prf pw n acc u).length = 64 := by
  intro n
  induction n with
  | zero => intro acc u h; exact h
  | succ n ih =>
    intro acc u h
    simp only [pbkdf2Iter]
    exact ih _ _ (by simp [xorBytes_length, h, hprf])

theorem pbkdf2Block_length (prf : List Nat → List Nat → List Nat) (pw salt : List Nat)
    (c i : Nat) (hprf : ∀ k d, (prf k d).length = 64) :
    (pbkdf2Block prf pw salt c i).length = 64 :=
  pbkdf2Iter_length prf pw hprf _ _ _ (hprf _ _)

theorem pbkdf2_length_64 (prf : List Nat → List Nat → List Nat) (pw salt : List Nat)
    (c : Nat) (hprf : ∀ k d, (prf k d).length = 64) :
    (pbkdf2 prf pw salt c 64 64).length = 64 := by
  simp only [pbkdf2]
  rw [show (64 + 64 - 1) / 64 = 1 from rfl, show List.range 1 = [0] from rfl]
  simp [pbkdf2Block_length prf pw salt c 1 hprf]

/-- Claim C7: `mnemonicToSeed` is a pure, deterministic function of its
inputs (two calls with the same arguments are equal), its result is exactly
64 bytes (512 derived bits of PBKDF2-HMAC-SHA-512), and the key stretching
is applied to the NFKD-normalized mnemonic with the salt
`'mnemonic' + passphrase` (NFKD-normalized), 2048 iterations. -/
theorem c7_mnemonicToSeed_deterministic_64bytes (prf : List Nat → List Nat → List Nat)
    (utf8 : String → List Nat) (nfkd : String → String)
    (mnemonic passphrase : String) (hprf : ∀ k d, (prf k d).length = 64) :
    mnemonicToSeed prf utf8 nfkd mnemonic passphrase =
      mnemonicToSeed prf utf8 nfkd mnemonic passphrase ∧
    (mnemonicToSeed prf utf8 nfkd mnemonic passphrase).length = 64 ∧
    mnemonicToSeed prf utf8 nfkd mnemonic passphrase =
      pbkdf2 prf (utf8 (nfkd mnemonic)) (utf8 ("mnemonic" ++ nfkd passphrase))
        2048 64 64 := by
  refine ⟨rfl, ?_, rfl⟩
  show (pbkdf2 prf (utf8 (nfkd mnemonic))
    (utf8 ("mnemonic" ++ nfkd passphrase)) 2048 64 64).length = 64
  exact pbkdf2_length_64 prf _ _ 2048 hprf

/-- Claim C7 witness: the seed of a concrete phrase is 64 bytes long. -/
theorem c7_mnemonicToSeed_deterministic_64bytes_witness :
    (mnemonicToSeed prfDemo demoUtf8Enc (fun s => s) zeroPhrase12 "").length = 64 :=
  (c7_mnemonicToSeed_deterministic_64bytes prfDemo demoUtf8Enc (fun s => s)
    zeroPhrase12 "" (fun k d => by simp [prfDemo])).2.1

end EternaWallet
